import Mathlib

/-!
Verification of the MNIST input pipeline `VAE/input_data.py`.

Shallow embedding conventions:
* byte streams are `List Nat` (each element a `uint8` value);
* `float32` pixel values are modelled as `ℚ` (the only values the claims
  inspect — multiples of 1/255, 0.0 and 1.0 — are exactly representable);
* `np.random.shuffle` of an index array is modelled by an explicit
  `shuffle_index : List Nat` parameter supplied by the caller: the code
  applies whatever permutation the global generator produced, and every
  theorem below holds for an arbitrary supplied permutation;
* the filesystem and the network used by `maybe_download` are an explicit
  state record `FS` threaded through the call.
-/

set_option autoImplicit false

universe u v

/-- `_read32`: `np.frombuffer(bytestream.read(4), dtype=uint32 big-endian)`.
Decodes the first four bytes big-endian and returns the rest of the stream;
`none` when fewer than four bytes remain. -/
def read32 : List Nat → Option (Nat × List Nat)
  | b0 :: b1 :: b2 :: b3 :: rest =>
      some (((b0 * 256 + b1) * 256 + b2) * 256 + b3, rest)
  | _ => none

/-- A 4-D uint8 image tensor `[index, y, x, depth]` with row-major payload,
as produced by `extract_image`. -/
structure Tensor4 where
  n : Nat
  h : Nat
  w : Nat
  c : Nat
  data : List Nat
deriving DecidableEq

/-- `extract_image(filename)` on an already gunzipped byte stream: read the
magic number (must be 2051), then count, rows, cols, then
`rows*cols*count` payload bytes, reshaped to `(count, rows, cols, 1)`.
The error string for a bad magic number is the exact `ValueError` text
`"Invalid magic number %d in MNIST image file:%s" % (magic, filename)`. -/
def extract_image (bytes : List Nat) (filename : String) : Except String Tensor4 :=
  match read32 bytes with
  | none => Except.error "truncated header"
  | some (magic, r1) =>
    if magic ≠ 2051 then
      Except.error ("Invalid magic number " ++ toString magic ++
        " in MNIST image file:" ++ filename)
    else
      match read32 r1 with
      | none => Except.error "truncated header"
      | some (num_images, r2) =>
        match read32 r2 with
        | none => Except.error "truncated header"
        | some (rows, r3) =>
          match read32 r3 with
          | none => Except.error "truncated header"
          | some (cols, r4) =>
            let need := rows * cols * num_images
            if r4.length < need then Except.error "cannot reshape truncated buffer"
            else Except.ok ⟨num_images, rows, cols, 1, r4.take need⟩

/-- The one-hot row with a single `1.0` at column `l` out of `C` columns
(used only to state theorems; the code builds the matrix by flat writes). -/
def oneHotRow (l C : Nat) : List ℚ :=
  (List.range C).map (fun j => if j = l then 1 else 0)

/-- `dense_to_one_hot(labels_dense, num_classes)`: allocate an
`N × num_classes` zero matrix and set `flat[arange(N)*num_classes + labels]`
to 1.  The flat buffer is a single list; row `i` of the result is the chunk
`flat[i*num_classes : (i+1)*num_classes]`. -/
def dense_to_one_hot (labels_dense : List Nat) (num_classes : Nat) : List (List ℚ) :=
  let num_labels := labels_dense.length
  let offset_index := (List.range num_labels).map (fun i => i * num_classes)
  let flat0 : List ℚ := List.replicate (num_labels * num_classes) 0
  let positions := List.zipWith (fun a b => a + b) offset_index labels_dense
  let flat := positions.foldl (fun f p => f.set p 1) flat0
  (List.range num_labels).map (fun i => (flat.drop (i * num_classes)).take num_classes)

/-- `dense_to_one_hot` with its default argument `num_classes=10`. -/
def dense_to_one_hot_default (labels_dense : List Nat) : List (List ℚ) :=
  dense_to_one_hot labels_dense 10

/-- `np.argmax` helper: scan the tail keeping the index of the first
strictly-largest element seen so far. -/
def argmaxAux : List ℚ → Nat → Nat → ℚ → Nat
  | [], _, best, _ => best
  | x :: rest, i, best, bv =>
      if bv < x then argmaxAux rest (i + 1) i x else argmaxAux rest (i + 1) best bv

/-- `np.argmax` on a 1-D array: index of the first occurrence of the maximum
(0 on the empty array). -/
def argmax : List ℚ → Nat
  | [] => 0
  | x :: rest => argmaxAux rest 1 0 x

/-- Numpy fancy indexing `xs[shuffle_index]`: pick out the rows listed in
`shuffle_index` (indices produced by shuffling `np.arange(n)` are always in
range, so the `Option` lookup never drops anything there). -/
def applyPerm {α : Type u} (shuffle_index : List Nat) (xs : List α) : List α :=
  shuffle_index.filterMap (fun i => xs.get? i)

/-- Python slice `xs[a:b]`. -/
def pySlice {α : Type u} (xs : List α) (a b : Nat) : List α :=
  (xs.drop a).take (b - a)

/-- The two `assert`s of `DataSet.__init__`: the first carries both shapes
in its message, the second (`images.shape[3] == 1`) is a bare assert. -/
inductive InitError where
  | shapeMismatch (imagesShape : Nat × Nat × Nat × Nat) (labelsCount : Nat)
  | channelNotOne
deriving DecidableEq

/-- The state of a `DataSet` object: flattened normalized image rows,
labels, `_num_examples`, `_epochs_completed`, `_index_in_epoch`. -/
structure DataSet (β : Type v) where
  images : List (List ℚ)
  labels : List β
  num_examples : Nat
  epochs_completed : Nat
  index_in_epoch : Nat
deriving DecidableEq

/-- Pixel normalization of `DataSet.__init__`:
`np.multiply(images.astype(float32), 1./255.0)` applied entrywise. -/
def normalizePixel (v : Nat) : ℚ := (v : ℚ) * (1 / 255)

/-- `DataSet.__init__(images, labels)`: assert equal counts (error carries
both shapes), assert exactly one channel, reshape each image to a row of
`h*w` values, scale by 1/255, then shuffle rows and labels by the same
index permutation drawn from the global generator. -/
def DataSet.init {β : Type v} (images : Tensor4) (labels : List β)
    (shuffle_index : List Nat) : Except InitError (DataSet β) :=
  if images.n ≠ labels.length then
    Except.error (InitError.shapeMismatch (images.n, images.h, images.w, images.c)
      labels.length)
  else if images.c ≠ 1 then
    Except.error InitError.channelNotOne
  else
    let n := images.n
    let m := images.h * images.w
    let rows := (List.range n).map
      (fun i => ((images.data.drop (i * m)).take m).map normalizePixel)
    Except.ok ⟨applyPerm shuffle_index rows, applyPerm shuffle_index labels, n, 0, 0⟩

/-- `DataSet.next_batch(batch_size)`: assert `batch_size <= _num_examples`;
advance the cursor; on overflow increment `_epochs_completed`, reshuffle
images and labels by the same fresh permutation, restart the cursor at 0
and serve the first `batch_size` rows; otherwise serve
`[start:_index_in_epoch]`. -/
def DataSet.next_batch {β : Type v} (s : DataSet β) (batch_size : Nat)
    (shuffle_index : List Nat) :
    Except String ((List (List ℚ) × List β) × DataSet β) :=
  if s.num_examples < batch_size then
    Except.error ("batch_size(" ++ toString batch_size ++
      ") bigger than data size(" ++ toString s.num_examples ++ ")")
  else
    let start := s.index_in_epoch
    let idx := s.index_in_epoch + batch_size
    if s.num_examples < idx then
      let images1 := applyPerm shuffle_index s.images
      let labels1 := applyPerm shuffle_index s.labels
      Except.ok ((pySlice images1 0 batch_size, pySlice labels1 0 batch_size),
        ⟨images1, labels1, s.num_examples, s.epochs_completed + 1, batch_size⟩)
    else
      Except.ok ((pySlice s.images start idx, pySlice s.labels start idx),
        ⟨s.images, s.labels, s.num_examples, s.epochs_completed, idx⟩)

/-- Run `k` consecutive `next_batch(batch_size)` calls (each rollover using
the supplied permutation), collecting the returned batches; `none` if any
call trips the batch-size assertion. -/
def runBatches {β : Type v} (batch_size : Nat) (shuffle_index : List Nat) :
    Nat → DataSet β → Option (List (List (List ℚ) × List β) × DataSet β)
  | 0, s => some ([], s)
  | k + 1, s =>
    match s.next_batch batch_size shuffle_index with
    | Except.error _ => none
    | Except.ok (batch, s1) =>
      match runBatches batch_size shuffle_index k s1 with
      | none => none
      | some (acc, s2) => some (batch :: acc, s2)

/-- `VALIDATION_SIZE` of `read_data_sets`. -/
def VALIDATION_SIZE : Nat := 5000

/-- The pure carving step of `read_data_sets`: validation takes
`train[:VALIDATION_SIZE]`, the training container keeps
`train[VALIDATION_SIZE:]`, for images and labels alike. -/
def read_data_sets_split {α : Type u} {β : Type v} (train_images : List α)
    (train_labels : List β) : (List α × List β) × (List α × List β) :=
  ((train_images.take VALIDATION_SIZE, train_labels.take VALIDATION_SIZE),
   (train_images.drop VALIDATION_SIZE, train_labels.drop VALIDATION_SIZE))

/-- The external world of `maybe_download`: existing directories, existing
files with their contents, the remote server (URL ↦ content), and a counter
of network retrievals performed. -/
structure FS where
  dirs : List String
  files : List (String × String)
  remote : String → String
  netCalls : Nat

/-- `SOURCE_URL` of the module. -/
def SOURCE_URL : String := "http://yann.lecun.com/exdb/mnist/"

/-- `maybe_download(filename, work_directory)`: create the directory if
absent; if `work_directory/filename` exists return it untouched, otherwise
retrieve `SOURCE_URL + filename` over the network (one `netCalls` tick),
write it, and return the path. -/
def maybe_download (filename work_directory : String) (fs : FS) : FS × String :=
  let fs1 := if work_directory ∈ fs.dirs then fs
    else ⟨work_directory :: fs.dirs, fs.files, fs.remote, fs.netCalls⟩
  let filepath := work_directory ++ "/" ++ filename
  if fs1.files.any (fun p => p.1 = filepath) then (fs1, filepath)
  else
    (⟨fs1.dirs, (filepath, fs1.remote (SOURCE_URL ++ filename)) :: fs1.files,
      fs1.remote, fs1.netCalls + 1⟩, filepath)

/-- Whether the character sequence `pat` occurs contiguously in `s`. -/
def containsSub (pat : List Char) : List Char → Bool
  | [] => pat.isEmpty
  | c :: rest => pat.isPrefixOf (c :: rest) || containsSub pat rest

/-! ### Helper lemmas about `next_batch` -/

lemma next_batch_rollover_eq {β : Type v} (s : DataSet β) (b : Nat) (p : List Nat)
    (hb : b ≤ s.num_examples) (hroll : s.num_examples < s.index_in_epoch + b) :
    s.next_batch b p = Except.ok
      ((pySlice (applyPerm p s.images) 0 b, pySlice (applyPerm p s.labels) 0 b),
       ⟨applyPerm p s.images, applyPerm p s.labels, s.num_examples,
        s.epochs_completed + 1, b⟩) := by
  unfold DataSet.next_batch
  rw [if_neg (Nat.not_lt.mpr hb)]
  simp only []
  rw [if_pos hroll]

lemma next_batch_within_eq {β : Type v} (s : DataSet β) (b : Nat) (p : List Nat)
    (hb : b ≤ s.num_examples) (hwithin : s.index_in_epoch + b ≤ s.num_examples) :
    s.next_batch b p = Except.ok
      ((pySlice s.images s.index_in_epoch (s.index_in_epoch + b),
        pySlice s.labels s.index_in_epoch (s.index_in_epoch + b)),
       ⟨s.images, s.labels, s.num_examples, s.epochs_completed,
        s.index_in_epoch + b⟩) := by
  unfold DataSet.next_batch
  rw [if_neg (Nat.not_lt.mpr hb)]
  simp only []
  rw [if_neg (Nat.not_lt.mpr hwithin)]

/-- C1: when the cursor `c` satisfies `c + b > N` (and `b ≤ N`),
`next_batch(b)` increments `epochs_completed` by exactly one, applies the
same fresh permutation to images and labels, resets the cursor to 0 before
selecting, returns the first `b` rows of the newly shuffled arrays, and
leaves the cursor at `b`. -/
theorem next_batch_rollover_spec {β : Type v} (s : DataSet β) (b : Nat) (p : List Nat)
    (hb : b ≤ s.num_examples) (hroll : s.index_in_epoch + b > s.num_examples) :
    s.next_batch b p = Except.ok
      ((pySlice (applyPerm p s.images) 0 b, pySlice (applyPerm p s.labels) 0 b),
       ⟨applyPerm p s.images, applyPerm p s.labels, s.num_examples,
        s.epochs_completed + 1, b⟩) :=
  next_batch_rollover_eq s b p hb hroll

/-- A concrete `DataSet` whose next batch call rolls over an epoch. -/
def wDS : DataSet Nat := ⟨[[1], [2]], [5, 6], 2, 0, 1⟩

/-- C1 witness: the rollover theorem applied to `wDS` with batch size 2 and
the swap permutation. -/
theorem next_batch_rollover_spec_witness :
    DataSet.next_batch wDS 2 [1, 0] =
      Except.ok (([[2], [1]], [6, 5]), ⟨[[2], [1]], [6, 5], 2, 1, 2⟩) :=
  (next_batch_rollover_spec wDS 2 [1, 0] (by decide) (by decide)).trans rfl

/-- C6: `DataSet.__init__` fails exactly when the image count differs from
the label count (the error then carrying both shapes) or the channel
dimension is not exactly one, and succeeds otherwise. -/
theorem init_assert_spec {β : Type v} (images : Tensor4) (labels : List β)
    (p : List Nat) :
    (images.n ≠ labels.length →
       DataSet.init images labels p = Except.error
         (InitError.shapeMismatch (images.n, images.h, images.w, images.c)
           labels.length)) ∧
    (images.n = labels.length → images.c ≠ 1 →
       DataSet.init images labels p = Except.error InitError.channelNotOne) ∧
    (images.n = labels.length → images.c = 1 →
       ∃ s, DataSet.init images labels p = Except.ok s) := by
  refine ⟨fun h1 => ?_, fun h1 h2 => ?_, fun h1 h2 => ?_⟩
  · unfold DataSet.init
    rw [if_pos h1]
  · unfold DataSet.init
    rw [if_neg (by simp [h1]), if_pos h2]
  · unfold DataSet.init
    rw [if_neg (by simp [h1]), if_neg (by simp [h2])]
    exact ⟨_, rfl⟩

/-- C6 witness: a count mismatch, a three-channel tensor, and a valid pair,
each run through `init_assert_spec`. -/
theorem init_assert_spec_witness :
    DataSet.init (⟨2, 1, 1, 1, [0, 0]⟩ : Tensor4) ([3] : List Nat) [0, 1] =
      Except.error (InitError.shapeMismatch (2, 1, 1, 1) 1) ∧
    DataSet.init (⟨1, 1, 1, 3, [0, 0, 0]⟩ : Tensor4) ([7] : List Nat) [0] =
      Except.error InitError.channelNotOne ∧
    ∃ s, DataSet.init (⟨1, 1, 1, 1, [9]⟩ : Tensor4) ([7] : List Nat) [0] =
      Except.ok s :=
  ⟨(init_assert_spec ⟨2, 1, 1, 1, [0, 0]⟩ [3] [0, 1]).1 (by decide),
   (init_assert_spec ⟨1, 1, 1, 3, [0, 0, 0]⟩ [7] [0]).2.1 rfl (by decide),
   (init_assert_spec ⟨1, 1, 1, 1, [9]⟩ [7] [0]).2.2 rfl rfl⟩

/-- C7: the carve of `read_data_sets` puts the first `VALIDATION_SIZE`
examples in the validation container and the remainder in the training
container; tracking original indices (`List.range N`), the two are
disjoint, and for `N = 5001` validation holds 5000 examples and train 1. -/
theorem read_data_sets_split_validation (N : Nat) :
    List.Disjoint ((read_data_sets_split (List.range N) (List.range N)).1.1)
      ((read_data_sets_split (List.range N) (List.range N)).2.1) ∧
    (N = 5001 →
      (read_data_sets_split (List.range N) (List.range N)).1.1.length = 5000 ∧
      (read_data_sets_split (List.range N) (List.range N)).2.1.length = 1) := by
  constructor
  · intro x hxv hxt
    simp only [read_data_sets_split, VALIDATION_SIZE] at hxv hxt
    rw [List.take_range] at hxv
    have hlt : x < 5000 := lt_of_lt_of_le (List.mem_range.mp hxv) (min_le_left _ _)
    obtain ⟨n, hn⟩ := List.mem_iff_get?.mp hxt
    rw [List.get?_drop] at hn
    by_cases hk : 5000 + n < N
    · rw [List.get?_range hk] at hn
      injection hn with h
      omega
    · rw [List.get?_eq_none.mpr (by rw [List.length_range]; omega)] at hn
      exact Option.noConfusion hn
  · intro hN
    subst hN
    simp [read_data_sets_split, VALIDATION_SIZE, List.length_take,
      List.length_drop, List.length_range]

/-- C7 witness: the split theorem at the synthetic 5001-example archive. -/
theorem read_data_sets_split_validation_witness :
    List.Disjoint
      ((read_data_sets_split (List.range 5001) (List.range 5001)).1.1)
      ((read_data_sets_split (List.range 5001) (List.range 5001)).2.1) ∧
    (read_data_sets_split (List.range 5001) (List.range 5001)).1.1.length = 5000 ∧
    (read_data_sets_split (List.range 5001) (List.range 5001)).2.1.length = 1 :=
  ⟨(read_data_sets_split_validation 5001).1,
   (read_data_sets_split_validation 5001).2 rfl⟩

instance {ε : Type u} {α : Type v} [DecidableEq ε] [DecidableEq α] :
    DecidableEq (Except ε α) := fun x y =>
  match x, y with
  | Except.ok a, Except.ok b =>
    if h : a = b then isTrue (by rw [h])
    else isFalse (fun hh => h (Except.ok.inj hh))
  | Except.error e1, Except.error e2 =>
    if h : e1 = e2 then isTrue (by rw [h])
    else isFalse (fun hh => h (Except.error.inj hh))
  | Except.ok _, Except.error _ => isFalse (fun hh => Except.noConfusion hh)
  | Except.error _, Except.ok _ => isFalse (fun hh => Except.noConfusion hh)

/-! ### `maybe_download` -/

lemma maybe_download_present_eq (filename work_directory : String) (fs : FS)
    (h : fs.files.any (fun q => q.1 = work_directory ++ "/" ++ filename) = true) :
    maybe_download filename work_directory fs =
      ((if work_directory ∈ fs.dirs then fs
        else ⟨work_directory :: fs.dirs, fs.files, fs.remote, fs.netCalls⟩ : FS),
       work_directory ++ "/" ++ filename) := by
  by_cases hd : work_directory ∈ fs.dirs <;> simp [maybe_download, hd, h]

lemma maybe_download_snd (filename work_directory : String) (fs : FS) :
    (maybe_download filename work_directory fs).2 =
      work_directory ++ "/" ++ filename := by
  unfold maybe_download
  by_cases hd : work_directory ∈ fs.dirs <;>
    by_cases hf : fs.files.any
      (fun q => q.1 = work_directory ++ "/" ++ filename) = true <;>
    simp [hd, hf]

lemma maybe_download_has_file (filename work_directory : String) (fs : FS) :
    (maybe_download filename work_directory fs).1.files.any
      (fun q => q.1 = work_directory ++ "/" ++ filename) = true := by
  unfold maybe_download
  by_cases hd : work_directory ∈ fs.dirs <;>
    by_cases hf : fs.files.any
      (fun q => q.1 = work_directory ++ "/" ++ filename) = true <;>
    simp [hd, hf]

/-- C9: when the target file is already present, `maybe_download` returns
its path touching neither the file table nor the network counter; and a
second call right after any first call performs no network retrieval and no
file write. -/
theorem maybe_download_idempotent (filename work_directory : String) (fs : FS) :
    ((∃ c, (work_directory ++ "/" ++ filename, c) ∈ fs.files) →
      (maybe_download filename work_directory fs).2 =
        work_directory ++ "/" ++ filename ∧
      (maybe_download filename work_directory fs).1.files = fs.files ∧
      (maybe_download filename work_directory fs).1.netCalls = fs.netCalls) ∧
    ((maybe_download filename work_directory
        (maybe_download filename work_directory fs).1).1.files =
       (maybe_download filename work_directory fs).1.files ∧
     (maybe_download filename work_directory
        (maybe_download filename work_directory fs).1).1.netCalls =
       (maybe_download filename work_directory fs).1.netCalls ∧
     (maybe_download filename work_directory
        (maybe_download filename work_directory fs).1).2 =
       (maybe_download filename work_directory fs).2) := by
  constructor
  · rintro ⟨c, hc⟩
    have hany : fs.files.any
        (fun q => q.1 = work_directory ++ "/" ++ filename) = true :=
      List.any_eq_true.mpr ⟨(work_directory ++ "/" ++ filename, c), hc, by simp⟩
    rw [maybe_download_present_eq filename work_directory fs hany]
    by_cases hd : work_directory ∈ fs.dirs <;> simp [hd]
  · rw [maybe_download_present_eq filename work_directory _
      (maybe_download_has_file filename work_directory fs)]
    rw [maybe_download_snd]
    by_cases hd : work_directory ∈ (maybe_download filename work_directory fs).1.dirs <;>
      simp [hd]

/-- A concrete world where the target file already exists. -/
def wFS : FS := ⟨["d"], [("d/a.gz", "payload")], fun _ => "remote", 0⟩

/-- C9 witness: `maybe_download_idempotent` applied to `wFS`, whose file
table already holds `d/a.gz`. -/
theorem maybe_download_idempotent_witness :
    (maybe_download "a.gz" "d" wFS).2 = "d" ++ "/" ++ "a.gz" ∧
    (maybe_download "a.gz" "d" wFS).1.files = wFS.files ∧
    (maybe_download "a.gz" "d" wFS).1.netCalls = wFS.netCalls :=
  (maybe_download_idempotent "a.gz" "d" wFS).1 ⟨"payload", by decide⟩

/-! ### Image normalization -/

lemma applyPerm_mem {α : Type u} {p : List Nat} {xs : List α} {y : α}
    (h : y ∈ applyPerm p xs) : y ∈ xs := by
  obtain ⟨i, _, hi⟩ := List.mem_filterMap.mp h
  exact List.get?_mem hi

/-- C8: after a successful `DataSet.__init__` on uint8 pixel data, every
stored image value lies in `[0, 1]`; the scaling maps 255 to exactly 1 and
0 to exactly 0. -/
theorem init_normalizes {β : Type v} (images : Tensor4) (labels : List β)
    (p : List Nat) (s : DataSet β)
    (hdata : ∀ v ∈ images.data, v ≤ 255)
    (hok : DataSet.init images labels p = Except.ok s) :
    (∀ row ∈ s.images, ∀ x ∈ row, 0 ≤ x ∧ x ≤ 1) ∧
    normalizePixel 255 = 1 ∧ normalizePixel 0 = 0 := by
  refine ⟨?_, by norm_num [normalizePixel], by norm_num [normalizePixel]⟩
  intro row hrow x hx
  unfold DataSet.init at hok
  by_cases h1 : images.n ≠ labels.length
  · rw [if_pos h1] at hok
    exact absurd hok (by simp)
  · rw [if_neg h1] at hok
    by_cases h2 : images.c ≠ 1
    · rw [if_pos h2] at hok
      exact absurd hok (by simp)
    · rw [if_neg h2] at hok
      have hs := Except.ok.inj hok
      rw [← hs] at hrow
      have hrow2 := applyPerm_mem hrow
      obtain ⟨i, _, hrow3⟩ := List.mem_map.mp hrow2
      rw [← hrow3] at hx
      obtain ⟨v, hv, hxv⟩ := List.mem_map.mp hx
      have hvdata : v ∈ images.data :=
        List.drop_subset _ _ (List.take_subset _ _ hv)
      have hv255 : (v : ℚ) ≤ 255 := by exact_mod_cast hdata v hvdata
      rw [← hxv]
      unfold normalizePixel
      constructor
      · positivity
      · linarith

/-- C8 witness: a two-pixel dataset holding the raw values 0 and 255. -/
theorem init_normalizes_witness :
    (∀ row ∈ (⟨[[normalizePixel 0], [normalizePixel 255]],
        [0, 0], 2, 0, 0⟩ : DataSet Nat).images,
       ∀ x ∈ row, 0 ≤ x ∧ x ≤ 1) ∧
    normalizePixel 255 = 1 ∧ normalizePixel 0 = 0 :=
  init_normalizes ⟨2, 1, 1, 1, [0, 255]⟩ ([0, 0] : List Nat) [0, 1]
    ⟨[[normalizePixel 0], [normalizePixel 255]], [0, 0], 2, 0, 0⟩
    (by decide) rfl

/-! ### `extract_image` magic-number failure -/

/-- C3 counterexample: on a stream whose decoded magic number is 0, the
decode fails with the exact source message, which contains the actual value
and the filename but nowhere the expected value 2051. -/
theorem extract_image_error_names_no_expected :
    extract_image [0, 0, 0, 0] "f" =
      Except.error "Invalid magic number 0 in MNIST image file:f" ∧
    containsSub "2051".data
      "Invalid magic number 0 in MNIST image file:f".data = false := by
  exact ⟨by decide, by decide⟩

/-- C3 amended: for every stream whose decoded magic number differs from
2051, `extract_image` fails, and the error message names the actual decoded
value and the filename (the expected value is not part of the message). -/
theorem extract_image_bad_magic (b0 b1 b2 b3 : Nat) (rest : List Nat)
    (filename : String)
    (hmagic : ((b0 * 256 + b1) * 256 + b2) * 256 + b3 ≠ 2051) :
    extract_image (b0 :: b1 :: b2 :: b3 :: rest) filename =
      Except.error ("Invalid magic number " ++
        toString (((b0 * 256 + b1) * 256 + b2) * 256 + b3) ++
        " in MNIST image file:" ++ filename) :=
  if_pos hmagic

/-- C3 witness: the amended theorem at magic number 1 and filename `g`. -/
theorem extract_image_bad_magic_witness :
    extract_image [0, 0, 0, 1] "g" =
      Except.error ("Invalid magic number " ++
        toString (((0 * 256 + 0) * 256 + 0) * 256 + 1) ++
        " in MNIST image file:" ++ "g") :=
  extract_image_bad_magic 0 0 0 1 [] "g" (by decide)

/-! ### Concrete N=10 batching scenarios -/

/-- A 10-example, 1x1-pixel, single-channel archive whose pixel values are
the original indices 0..9. -/
def t10 : Tensor4 := ⟨10, 1, 1, 1, List.range 10⟩

/-- The `DataSet` state `DataSet.__init__` builds from `t10` with labels
0..9 when the construction shuffle is the identity permutation. -/
def s10 : DataSet Nat :=
  ⟨(List.range 10).map (fun v => [normalizePixel v]), List.range 10, 10, 0, 0⟩

/-- A concrete non-identity rollover permutation. -/
def revPerm10 : List Nat := (List.range 10).reverse

/-- C2: from a fresh 10-example dataset, `next_batch(3)` three times returns
the label batches [0,1,2],[3,4,5],[6,7,8] — nine distinct rows, never the
tenth row (label 9) — and the fourth call rolls the epoch over (drop-tail);
with `next_batch(4)`, after the third call (batches 4,4 then a rollover that
drops rows 8 and 9) `epochs_completed` equals 1. -/
theorem next_batch_drop_tail_n10 :
    DataSet.init t10 (List.range 10) (List.range 10) = Except.ok s10 ∧
    runBatches 3 (List.range 10) 3 s10 =
      some ([(pySlice s10.images 0 3, [0, 1, 2]),
             (pySlice s10.images 3 6, [3, 4, 5]),
             (pySlice s10.images 6 9, [6, 7, 8])],
            ⟨s10.images, s10.labels, 10, 0, 9⟩) ∧
    (([0, 1, 2] ++ [3, 4, 5] ++ [6, 7, 8] : List Nat).Nodup ∧
     ([0, 1, 2] ++ [3, 4, 5] ++ [6, 7, 8] : List Nat).length = 9 ∧
     (9 : Nat) ∉ ([0, 1, 2] ++ [3, 4, 5] ++ [6, 7, 8] : List Nat)) ∧
    DataSet.next_batch (⟨s10.images, s10.labels, 10, 0, 9⟩ : DataSet Nat) 3
        revPerm10 =
      Except.ok ((pySlice (applyPerm revPerm10 s10.images) 0 3,
                  pySlice (applyPerm revPerm10 s10.labels) 0 3),
        ⟨applyPerm revPerm10 s10.images, applyPerm revPerm10 s10.labels,
         10, 1, 3⟩) ∧
    runBatches 4 revPerm10 3 s10 =
      some ([(pySlice s10.images 0 4, [0, 1, 2, 3]),
             (pySlice s10.images 4 8, [4, 5, 6, 7]),
             (pySlice (applyPerm revPerm10 s10.images) 0 4,
              pySlice (applyPerm revPerm10 s10.labels) 0 4)],
            ⟨applyPerm revPerm10 s10.images, applyPerm revPerm10 s10.labels,
             10, 1, 4⟩) ∧
    (⟨applyPerm revPerm10 s10.images, applyPerm revPerm10 s10.labels,
      10, 1, 4⟩ : DataSet Nat).epochs_completed = 1 ∧
    (8 : Nat) ∉ ([0, 1, 2, 3] ++ [4, 5, 6, 7] : List Nat) ∧
    (9 : Nat) ∉ ([0, 1, 2, 3] ++ [4, 5, 6, 7] : List Nat) :=
  ⟨rfl, rfl, by decide, rfl, rfl, rfl, by decide, by decide⟩

/-! ### Exact-division full pass (C10) -/

lemma pySlice_append {α : Type u} (xs : List α) (a m c : Nat)
    (h1 : a ≤ m) (h2 : m ≤ c) :
    pySlice xs a m ++ pySlice xs m c = pySlice xs a c := by
  unfold pySlice
  have hd : xs.drop m = (xs.drop a).drop (m - a) := by
    rw [List.drop_drop]
    congr 1
    omega
  have hc : c - a = (m - a) + (c - m) := by omega
  rw [hd, hc, List.take_add]

lemma runBatches_within_epoch {β : Type v} (b : Nat) (p : List Nat) :
    ∀ (k : Nat) (s : DataSet β), b ≤ s.num_examples →
      s.index_in_epoch + k * b ≤ s.num_examples →
      ∃ batches,
        runBatches b p k s =
          some (batches,
            ⟨s.images, s.labels, s.num_examples, s.epochs_completed,
             s.index_in_epoch + k * b⟩) ∧
        (batches.map Prod.fst).flatten =
          pySlice s.images s.index_in_epoch (s.index_in_epoch + k * b) ∧
        (batches.map Prod.snd).flatten =
          pySlice s.labels s.index_in_epoch (s.index_in_epoch + k * b) := by
  intro k
  induction k with
  | zero =>
    intro s hb hk
    refine ⟨[], ?_, ?_, ?_⟩ <;> simp [runBatches, pySlice]
  | succ k ih =>
    intro s hb hk
    have hexp : (k + 1) * b = k * b + b := Nat.succ_mul k b
    rw [hexp] at hk
    have hwithin : s.index_in_epoch + b ≤ s.num_examples := by omega
    obtain ⟨batches, h1, h2, h3⟩ :=
      ih ⟨s.images, s.labels, s.num_examples, s.epochs_completed,
          s.index_in_epoch + b⟩ hb (by dsimp only; omega)
    dsimp only at h1 h2 h3
    have harith : s.index_in_epoch + b + k * b = s.index_in_epoch + (k + 1) * b := by
      rw [hexp]; omega
    refine ⟨(pySlice s.images s.index_in_epoch (s.index_in_epoch + b),
             pySlice s.labels s.index_in_epoch (s.index_in_epoch + b)) :: batches,
            ?_, ?_, ?_⟩
    · show runBatches b p (k + 1) s = _
      unfold runBatches
      rw [next_batch_within_eq s b p hb hwithin]
      dsimp only
      rw [h1, harith]
    · rw [List.map_cons, List.flatten_cons, h2,
        pySlice_append s.images _ _ _ (by omega) (by omega), harith]
    · rw [List.map_cons, List.flatten_cons, h3,
        pySlice_append s.labels _ _ _ (by omega) (by omega), harith]

/-- C10: with a batch size `b` dividing `N` exactly, after `N / b` calls on
a fresh dataset every row has been returned exactly once (the batches
concatenate to the full arrays, in order), yet `epochs_completed` is still
0 and the cursor sits at `N`; only the following call increments the epoch
counter and reshuffles. -/
theorem full_pass_not_yet_epoch {β : Type v} (s : DataSet β) (b : Nat)
    (p : List Nat)
    (hidx : s.index_in_epoch = 0) (hep : s.epochs_completed = 0)
    (hilen : s.images.length = s.num_examples)
    (hllen : s.labels.length = s.num_examples)
    (hb : 0 < b) (hble : b ≤ s.num_examples) (hdvd : b ∣ s.num_examples) :
    ∃ batches,
      runBatches b p (s.num_examples / b) s =
        some (batches,
          ⟨s.images, s.labels, s.num_examples, 0, s.num_examples⟩) ∧
      (batches.map Prod.fst).flatten = s.images ∧
      (batches.map Prod.snd).flatten = s.labels ∧
      DataSet.next_batch
          (⟨s.images, s.labels, s.num_examples, 0, s.num_examples⟩ : DataSet β)
          b p =
        Except.ok
          ((pySlice (applyPerm p s.images) 0 b,
            pySlice (applyPerm p s.labels) 0 b),
           ⟨applyPerm p s.images, applyPerm p s.labels, s.num_examples, 1, b⟩) := by
  obtain ⟨batches, h1, h2, h3⟩ :=
    runBatches_within_epoch b p (s.num_examples / b) s hble
      (by rw [hidx, Nat.div_mul_cancel hdvd]; omega)
  rw [hidx, hep, Nat.div_mul_cancel hdvd] at h1
  rw [hidx, Nat.div_mul_cancel hdvd] at h2 h3
  refine ⟨batches, by simpa using h1, ?_, ?_, ?_⟩
  · rw [h2]
    unfold pySlice
    simp only [List.drop_zero, Nat.zero_add, Nat.sub_zero]
    rw [← hilen, List.take_length]
  · rw [h3]
    unfold pySlice
    simp only [List.drop_zero, Nat.zero_add, Nat.sub_zero]
    rw [← hllen, List.take_length]
  · exact next_batch_rollover_eq
      ⟨s.images, s.labels, s.num_examples, 0, s.num_examples⟩ b p hble
      (by show s.num_examples < s.num_examples + b; omega)

/-- C10 witness: a fresh two-example dataset with batch size 1, whose two
calls return both rows with the epoch counter still 0, the third call
rolling over. -/
theorem full_pass_not_yet_epoch_witness :
    ∃ batches,
      runBatches 1 [1, 0] (2 / 1) (⟨[[1], [2]], [5, 6], 2, 0, 0⟩ : DataSet Nat) =
        some (batches, ⟨[[1], [2]], [5, 6], 2, 0, 2⟩) ∧
      (batches.map Prod.fst).flatten = [[1], [2]] ∧
      (batches.map Prod.snd).flatten = [5, 6] ∧
      DataSet.next_batch (⟨[[1], [2]], [5, 6], 2, 0, 2⟩ : DataSet Nat) 1 [1, 0] =
        Except.ok
          ((pySlice (applyPerm [1, 0] [[1], [2]]) 0 1,
            pySlice (applyPerm [1, 0] [5, 6]) 0 1),
           ⟨applyPerm [1, 0] [[1], [2]], applyPerm [1, 0] [5, 6], 2, 1, 1⟩) :=
  full_pass_not_yet_epoch (⟨[[1], [2]], [5, 6], 2, 0, 0⟩ : DataSet Nat) 1 [1, 0]
    rfl rfl rfl rfl (by decide) (by decide) ⟨2, rfl⟩

/-! ### One-hot encoding (C4, C5) -/

universe w

/-- The index list `arange(N)*num_classes + labels` of the flat writes of
`dense_to_one_hot`. -/
def oneHotPositions (labels_dense : List Nat) (num_classes : Nat) : List Nat :=
  List.zipWith (fun a b => a + b)
    ((List.range labels_dense.length).map (fun i => i * num_classes)) labels_dense

/-- The flat buffer of `dense_to_one_hot` after all writes. -/
def oneHotFlat (labels_dense : List Nat) (num_classes : Nat) : List ℚ :=
  (oneHotPositions labels_dense num_classes).foldl (fun f p => f.set p 1)
    (List.replicate (labels_dense.length * num_classes) 0)

lemma dense_to_one_hot_rows (labels : List Nat) (C : Nat) :
    dense_to_one_hot labels C =
      (List.range labels.length).map
        (fun i => ((oneHotFlat labels C).drop (i * C)).take C) := rfl

lemma replicate_get? {α : Type u} (a : α) :
    ∀ (n q : Nat), q < n → (List.replicate n a).get? q = some a
  | n + 1, 0, _ => rfl
  | n + 1, q + 1, h => by
      rw [List.replicate_succ]
      exact replicate_get? a n q (by omega)

lemma zipWith_get?_eq {α : Type u} {β : Type v} {γ : Type w} (f : α → β → γ) :
    ∀ (as : List α) (bs : List β) (k : Nat),
      (List.zipWith f as bs).get? k =
        (as.get? k).bind (fun a => (bs.get? k).map (fun b => f a b))
  | [], bs, k => by simp
  | a :: as, [], k => by simp
  | a :: as, b :: bs, 0 => rfl
  | a :: as, b :: bs, k + 1 => by
      simpa using zipWith_get?_eq f as bs k

lemma foldl_set_length {α : Type u} (v : α) :
    ∀ (ps : List Nat) (f : List α),
      (ps.foldl (fun g p => g.set p v) f).length = f.length
  | [], _ => rfl
  | p :: ps, f => by
      rw [List.foldl_cons, foldl_set_length v ps, List.length_set]

lemma foldl_set_get_of_not_mem {α : Type u} (v : α) :
    ∀ (ps : List Nat) (f : List α) (q : Nat), q ∉ ps →
      (ps.foldl (fun g p => g.set p v) f).get? q = f.get? q
  | [], _, _, _ => rfl
  | p :: ps, f, q, hq => by
      rw [List.foldl_cons,
        foldl_set_get_of_not_mem v ps _ q (fun h => hq (List.mem_cons_of_mem _ h)),
        List.get?_set_ne v f (by rintro rfl; exact hq (List.mem_cons_self p ps))]

lemma foldl_set_get_of_mem {α : Type u} (v : α) :
    ∀ (ps : List Nat) (f : List α) (q : Nat), q ∈ ps → q < f.length →
      (ps.foldl (fun g p => g.set p v) f).get? q = some v
  | p :: ps, f, q, hq, hlen => by
      rw [List.foldl_cons]
      by_cases hmem : q ∈ ps
      · exact foldl_set_get_of_mem v ps (f.set p v) q hmem
          (by rw [List.length_set]; exact hlen)
      · have hpq : q = p := by
          rcases List.mem_cons.mp hq with h | h
          · exact h
          · exact absurd h hmem
        subst hpq
        rw [foldl_set_get_of_not_mem v ps (f.set q v) q hmem, List.get?_set_eq,
          List.get?_eq_get hlen]
        rfl

lemma positions_get? (labels : List Nat) (C k : Nat) (hk : k < labels.length) :
    (oneHotPositions labels C).get? k = some (k * C + labels.get ⟨k, hk⟩) := by
  unfold oneHotPositions
  rw [zipWith_get?_eq, List.get?_map, List.get?_range hk, List.get?_eq_get hk]
  rfl

lemma mem_positions_iff (labels : List Nat) (C q : Nat) :
    q ∈ oneHotPositions labels C ↔
      ∃ k, ∃ hk : k < labels.length, q = k * C + labels.get ⟨k, hk⟩ := by
  rw [List.mem_iff_get?]
  constructor
  · rintro ⟨k, hk⟩
    have hklen : k < labels.length := by
      obtain ⟨hlt, -⟩ := List.get?_eq_some.mp hk
      unfold oneHotPositions at hlt
      rw [List.length_zipWith, List.length_map, List.length_range, min_self] at hlt
      exact hlt
    rw [positions_get? labels C k hklen] at hk
    exact ⟨k, hklen, (Option.some.inj hk).symm⟩
  · rintro ⟨k, hk, rfl⟩
    exact ⟨k, positions_get? labels C k hk⟩

lemma rowcol_inj {C i j k l : Nat} (hj : j < C) (hl : l < C)
    (h : i * C + j = k * C + l) : i = k ∧ j = l := by
  have hC : 0 < C := lt_of_le_of_lt (Nat.zero_le j) hj
  have h' : C * i + j = C * k + l := by
    rw [Nat.mul_comm C i, Nat.mul_comm C k]
    exact h
  have hi : (C * i + j) / C = i := by
    rw [Nat.mul_add_div hC, Nat.div_eq_of_lt hj, Nat.add_zero]
  have hk2 : (C * k + l) / C = k := by
    rw [Nat.mul_add_div hC, Nat.div_eq_of_lt hl, Nat.add_zero]
  have hieq : i = k := by rw [← hi, h', hk2]
  subst hieq
  exact ⟨rfl, by omega⟩

lemma oneHotFlat_get? (labels : List Nat) (C : Nat) (h : ∀ l ∈ labels, l < C)
    (i j : Nat) (hi : i < labels.length) (hj : j < C) :
    (oneHotFlat labels C).get? (i * C + j) =
      some (if j = labels.get ⟨i, hi⟩ then (1 : ℚ) else 0) := by
  have hlen : i * C + j < labels.length * C := by
    calc i * C + j < i * C + C := by omega
    _ = (i + 1) * C := by rw [Nat.succ_mul]
    _ ≤ labels.length * C := Nat.mul_le_mul_right C (Nat.succ_le_of_lt hi)
  unfold oneHotFlat
  by_cases hcase : j = labels.get ⟨i, hi⟩
  · rw [if_pos hcase]
    apply foldl_set_get_of_mem
    · exact (mem_positions_iff labels C _).mpr ⟨i, hi, by rw [hcase]⟩
    · rw [List.length_replicate]
      exact hlen
  · rw [if_neg hcase]
    rw [foldl_set_get_of_not_mem]
    · exact replicate_get? 0 _ _ hlen
    · intro hmem
      obtain ⟨k, hk, heq⟩ := (mem_positions_iff labels C _).mp hmem
      obtain ⟨hik, hjl⟩ :=
        rowcol_inj hj (h _ (List.get_mem labels k hk)) heq
      subst hik
      exact hcase hjl

lemma dense_row (labels : List Nat) (C : Nat) (h : ∀ l ∈ labels, l < C)
    (i : Nat) (hi : i < labels.length) :
    ((oneHotFlat labels C).drop (i * C)).take C =
      oneHotRow (labels.get ⟨i, hi⟩) C := by
  apply List.ext_get?
  intro j
  by_cases hj : j < C
  · rw [List.get?_take hj, List.get?_drop, oneHotFlat_get? labels C h i j hi hj]
    unfold oneHotRow
    rw [List.get?_map, List.get?_range hj]
    rfl
  · have h1 : (((oneHotFlat labels C).drop (i * C)).take C).get? j = none :=
      List.get?_eq_none.mpr
        (le_trans (by rw [List.length_take]; exact min_le_left _ _)
          (Nat.le_of_not_lt hj))
    have h2 : (oneHotRow (labels.get ⟨i, hi⟩) C).get? j = none :=
      List.get?_eq_none.mpr
        (by unfold oneHotRow; rw [List.length_map, List.length_range]; omega)
    rw [h1, h2]

lemma dense_to_one_hot_eq_map (labels : List Nat) (C : Nat)
    (h : ∀ l ∈ labels, l < C) :
    dense_to_one_hot labels C = labels.map (fun l => oneHotRow l C) := by
  rw [dense_to_one_hot_rows]
  apply List.ext_get?
  intro i
  rw [List.get?_map, List.get?_map]
  by_cases hi : i < labels.length
  · rw [List.get?_range hi, List.get?_eq_get hi, Option.map_some', Option.map_some']
    exact congrArg some (dense_row labels C h i hi)
  · have h1 : (List.range labels.length).get? i = none :=
      List.get?_eq_none.mpr (by rw [List.length_range]; omega)
    have h2 : labels.get? i = none := List.get?_eq_none.mpr (by omega)
    rw [h1, h2]
    rfl

lemma argmaxAux_cons (x : ℚ) (rest : List ℚ) (i best : Nat) (bv : ℚ) :
    argmaxAux (x :: rest) i best bv =
      if bv < x then argmaxAux rest (i + 1) i x
      else argmaxAux rest (i + 1) best bv := rfl

lemma argmaxAux_zeros (k : Nat) :
    ∀ (rest : List ℚ) (i best : Nat) (bv : ℚ), 0 ≤ bv →
      argmaxAux (List.replicate k 0 ++ rest) i best bv =
        argmaxAux rest (i + k) best bv := by
  induction k with
  | zero =>
    intro rest i best bv _
    simp
  | succ k ih =>
    intro rest i best bv hbv
    rw [List.replicate_succ, List.cons_append, argmaxAux_cons,
      if_neg (not_lt.mpr hbv), ih rest (i + 1) best bv hbv]
    congr 1
    omega

lemma argmax_replicate_one (l b : Nat) :
    argmax (List.replicate l (0 : ℚ) ++ (1 : ℚ) :: List.replicate b 0) = l := by
  cases l with
  | zero =>
    rw [show List.replicate 0 (0 : ℚ) ++ (1 : ℚ) :: List.replicate b 0 =
        (1 : ℚ) :: List.replicate b 0 from rfl]
    rw [show argmax ((1 : ℚ) :: List.replicate b 0) =
        argmaxAux (List.replicate b 0) 1 0 1 from rfl]
    rw [show List.replicate b (0 : ℚ) = List.replicate b (0 : ℚ) ++ [] by simp]
    rw [argmaxAux_zeros b [] 1 0 1 (by norm_num)]
    rfl
  | succ l =>
    rw [List.replicate_succ, List.cons_append]
    rw [show argmax ((0 : ℚ) :: (List.replicate l 0 ++ (1 : ℚ) :: List.replicate b 0)) =
        argmaxAux (List.replicate l 0 ++ (1 : ℚ) :: List.replicate b 0) 1 0 0
        from rfl]
    rw [argmaxAux_zeros l ((1 : ℚ) :: List.replicate b 0) 1 0 0 le_rfl]
    rw [argmaxAux_cons, if_pos (by norm_num : (0 : ℚ) < 1)]
    rw [show List.replicate b (0 : ℚ) = List.replicate b (0 : ℚ) ++ [] by simp]
    rw [argmaxAux_zeros b [] (1 + l + 1) (1 + l) 1 (by norm_num)]
    show 1 + l = l + 1
    omega

lemma oneHotRow_eq_replicate (l C : Nat) (hl : l < C) :
    oneHotRow l C =
      List.replicate l (0 : ℚ) ++ (1 : ℚ) :: List.replicate (C - l - 1) 0 := by
  unfold oneHotRow
  have hC : C = l + (1 + (C - l - 1)) := by omega
  conv_lhs => rw [hC]
  rw [List.range_add, List.map_append]
  congr 1
  · rw [List.eq_replicate]
    refine ⟨by rw [List.length_map, List.length_range], ?_⟩
    intro x hx
    obtain ⟨j, hj, rfl⟩ := List.mem_map.mp hx
    have hjl : j < l := List.mem_range.mp hj
    rw [if_neg (by omega)]
  · rw [List.map_map]
    have h1b : 1 + (C - l - 1) = (C - l - 1) + 1 := by omega
    rw [h1b, List.range_succ_eq_map, List.map_cons]
    congr 1
    · show (if l + 0 = l then (1 : ℚ) else 0) = 1
      rw [if_pos (by omega)]
    · rw [List.map_map, List.eq_replicate]
      refine ⟨by rw [List.length_map, List.length_range], ?_⟩
      intro x hx
      obtain ⟨j, hj, rfl⟩ := List.mem_map.mp hx
      show (if l + (j + 1) = l then (1 : ℚ) else 0) = 0
      rw [if_neg (by omega)]

lemma argmax_oneHotRow (l C : Nat) (hl : l < C) : argmax (oneHotRow l C) = l := by
  rw [oneHotRow_eq_replicate l C hl, argmax_replicate_one]

/-- C5: on labels all in `[0, num_classes)`, `dense_to_one_hot` returns one
one-hot row per label — an `N × num_classes` matrix of zeros with a single
`1.0` per row, at the column equal to that row's class index — and the
one-argument form uses the default `num_classes = 10`. -/
theorem dense_to_one_hot_spec (labels : List Nat) (C : Nat)
    (h : ∀ l ∈ labels, l < C) :
    dense_to_one_hot labels C = labels.map (fun l => oneHotRow l C) ∧
    dense_to_one_hot_default labels = dense_to_one_hot labels 10 :=
  ⟨dense_to_one_hot_eq_map labels C h, rfl⟩

/-- C5 witness: labels `[3, 1]` with 5 classes. -/
theorem dense_to_one_hot_spec_witness :
    dense_to_one_hot [3, 1] 5 = ([3, 1] : List Nat).map (fun l => oneHotRow l 5) ∧
    dense_to_one_hot_default [3, 1] = dense_to_one_hot [3, 1] 10 :=
  dense_to_one_hot_spec [3, 1] 5 (by decide)

/-- C4: encoding labels in `[0, num_classes)` as one-hot rows and decoding
each row with `np.argmax` recovers the original label array exactly. -/
theorem one_hot_argmax_roundtrip (labels : List Nat) (C : Nat)
    (h : ∀ l ∈ labels, l < C) :
    (dense_to_one_hot labels C).map argmax = labels := by
  rw [dense_to_one_hot_eq_map labels C h, List.map_map]
  conv_rhs => rw [← List.map_id labels]
  apply List.map_congr_left
  intro l hl
  show argmax (oneHotRow l C) = id l
  exact argmax_oneHotRow l C (h l hl)

/-- C4 witness: the round trip at labels `[3, 1, 0]` with 5 classes. -/
theorem one_hot_argmax_roundtrip_witness :
    (dense_to_one_hot [3, 1, 0] 5).map argmax = [3, 1, 0] :=
  one_hot_argmax_roundtrip [3, 1, 0] 5 (by decide)
